import Mathlib

/-
Verification development for the Forex-bot trading core
(Backend/core/broker.py, Backend/core/monitor.py, Backend/core/trade.py).

The Python code is shallowly embedded: every stateful method becomes a pure
Lean function on an explicit state record, threading the state through and,
where the claims need it, emitting a trace of lock / gateway / sleep events.
Prices are modelled as rationals; Python dicts become association lists and
Python sets become duplicate-free lists built by insert-if-absent.
-/

namespace ForexBot

/-- Symbols are broker instrument names. -/
abbrev Symbol := String

/-- Quote dictionary returned by BrokerConnection.get_price: bid and ask prices plus
an optional observation time (cached entries may lack the time key, which matters
for the freshness check in PriceMonitor.get_price). -/
structure Price where
  bid : ℚ
  ask : ℚ
  time : Option ℚ
deriving DecidableEq, Repr

/-- Modelled from the spec: the TradeInstruction class is imported by the executor but
its definition is absent from the sources; fields follow spec section 3 (id unique and
monotonic, symbol, entry, exit, stop loss, lot size, direction, comment) and the
constructor call in TradeExecutor.add_trade_instruction. -/
structure TradeInstruction where
  id : ℕ
  symbol : Symbol
  entry_price : ℚ
  exit_price : ℚ
  stop_loss : ℚ
  lot_size : ℚ
  direction : String
  comment : String
deriving DecidableEq, Repr

/-- Modelled from the spec: the ActiveTrade class is imported by the executor but its
definition is absent from the sources; fields follow spec section 3 and the constructor
call in TradeExecutor.execute_trade (gateway ticket, fill price, entry time). -/
structure ActiveTrade where
  ticket : ℤ
  symbol : Symbol
  entry_price : ℚ
  exit_price : ℚ
  stop_loss : ℚ
  lot_size : ℚ
  direction : String
  comment : String
  entry_time : ℚ
deriving DecidableEq, Repr

/-- Position dictionary as produced by BrokerConnection.get_positions and consumed by
the monitoring loop and the exit / stop-loss condition checks. -/
structure PositionRec where
  ticket : ℤ
  symbol : Symbol
  ptype : Option String
  stop_loss : Option ℚ
  take_profit : Option ℚ
deriving DecidableEq, Repr

/-- Gateway environment: the behaviour of BrokerConnection observed by the monitor,
namely the connectivity check and the result of get_price per symbol. -/
structure BrokerEnv where
  connected : Bool
  get_price : Symbol → Option Price

/-- State owned by PriceMonitor: the watch-list (a Python set, modelled as a
duplicate-free list) and the per-symbol quote cache (a Python dict). -/
structure MonitorState where
  symbols_to_monitor : List Symbol
  price_data : List (Symbol × Price)
deriving DecidableEq, Repr

/-- State owned by TradeExecutor: the pending-instruction backlog and the
active-trade registry, both guarded by the trade lock in the source. -/
structure ExecutorState where
  trade_instructions : List TradeInstruction
  active_trades : List ActiveTrade
deriving DecidableEq, Repr

/-- Python str.lower as used by the source for direction and position-type values,
acting charwise on the string contents. -/
def pyLower (s : String) : String := String.mk (s.data.map Char.toLower)

/-- Insertion into a Python set: add the element only when it is absent. -/
def insertSym (l : List Symbol) (s : Symbol) : List Symbol :=
  if s ∈ l then l else l ++ [s]

/-- Lookup in a Python dict modelled as an association list. -/
def lookupPrice : List (Symbol × Price) → Symbol → Option Price
  | [], _ => none
  | (s, p) :: rest, sym => if s = sym then some p else lookupPrice rest sym

/-- Assignment pd[sym] = p into a Python dict modelled as an association list. -/
def updateAssoc : List (Symbol × Price) → Symbol → Price → List (Symbol × Price)
  | [], sym, p => [(sym, p)]
  | (s, q) :: rest, sym, p =>
      if s = sym then (sym, p) :: rest else (s, q) :: updateAssoc rest sym p

/-- Deletion del pd[sym] from a Python dict modelled as an association list. -/
def eraseAssoc : List (Symbol × Price) → Symbol → List (Symbol × Price)
  | [], _ => []
  | (s, q) :: rest, sym => if s = sym then rest else (s, q) :: eraseAssoc rest sym

/-- PriceMonitor.add_symbol: requires the broker connected, validates the symbol by
one quote fetch, and on success inserts into the watch-list and seeds the cache. -/
def PriceMonitor.add_symbol (env : BrokerEnv) (st : MonitorState) (symbol : Symbol) :
    Bool × MonitorState :=
  if env.connected = false then (false, st)
  else
    match env.get_price symbol with
    | none => (false, st)
    | some price =>
        (true,
         { symbols_to_monitor := insertSym st.symbols_to_monitor symbol,
           price_data := updateAssoc st.price_data symbol price })

/-- PriceMonitor.remove_symbol: removes the symbol from the watch-list and the cache,
returning false when it was absent. -/
def PriceMonitor.remove_symbol (st : MonitorState) (symbol : Symbol) :
    Bool × MonitorState :=
  if symbol ∈ st.symbols_to_monitor then
    (true,
     { symbols_to_monitor := st.symbols_to_monitor.erase symbol,
       price_data := eraseAssoc st.price_data symbol })
  else (false, st)

/-- Fresh fetch branch of PriceMonitor.get_price: ask the broker, refresh the cache on
success; the final boolean records that the broker was contacted. -/
def fetchPrice (env : BrokerEnv) (st : MonitorState) (symbol : Symbol) :
    Option Price × MonitorState × Bool :=
  match env.get_price symbol with
  | some p => (some p, { st with price_data := updateAssoc st.price_data symbol p }, true)
  | none => (none, st, true)

/-- PriceMonitor.get_price: fail when disconnected; return the cached entry when it has
no time key or is less than 5 seconds old; otherwise fetch from the broker and refresh
the cache. The final boolean records whether the broker get_price call was made. -/
def PriceMonitor.get_price (env : BrokerEnv) (now : ℚ) (st : MonitorState)
    (symbol : Symbol) : Option Price × MonitorState × Bool :=
  if env.connected = false then (none, st, false)
  else
    match lookupPrice st.price_data symbol with
    | some cached =>
        match cached.time with
        | none => (some cached, st, false)
        | some t =>
            if now - t < 5 then (some cached, st, false)
            else fetchPrice env st symbol
    | none => fetchPrice env st symbol

/-- PriceMonitor.check_entry_condition: fetch the quote through the cache, then for buy
require ask at or below the entry price and for sell require bid at or above it. The
instruction argument is reduced to its entry price and optional direction. -/
def PriceMonitor.check_entry_condition (env : BrokerEnv) (now : ℚ) (st : MonitorState)
    (symbol : Symbol) (entry_price : ℚ) (direction : Option String) :
    Bool × MonitorState :=
  let r := PriceMonitor.get_price env now st symbol
  match r.1 with
  | none => (false, r.2.1)
  | some p =>
      let d := pyLower (direction.getD "buy")
      if d = "buy" ∧ p.ask ≤ entry_price then (true, r.2.1)
      else if d = "sell" ∧ p.bid ≥ entry_price then (true, r.2.1)
      else (false, r.2.1)

/-- PriceMonitor.check_exit_condition: fetch the quote through the cache, require a take
profit on the position, then for buy positions compare bid at or above the take profit
and for sell positions ask at or below it. -/
def PriceMonitor.check_exit_condition (env : BrokerEnv) (now : ℚ) (st : MonitorState)
    (symbol : Symbol) (pos : PositionRec) : Bool × MonitorState :=
  let r := PriceMonitor.get_price env now st symbol
  match r.1 with
  | none => (false, r.2.1)
  | some p =>
      match pos.take_profit with
      | none => (false, r.2.1)
      | some tp =>
          let d := pyLower (pos.ptype.getD "")
          if d = "buy" ∧ p.bid ≥ tp then (true, r.2.1)
          else if d = "sell" ∧ p.ask ≤ tp then (true, r.2.1)
          else (false, r.2.1)

/-- PriceMonitor.check_sl_condition: fetch the quote through the cache, require a stop
loss on the position, then for buy positions compare bid at or below the stop loss and
for sell positions ask at or above it. -/
def PriceMonitor.check_sl_condition (env : BrokerEnv) (now : ℚ) (st : MonitorState)
    (symbol : Symbol) (pos : PositionRec) : Bool × MonitorState :=
  let r := PriceMonitor.get_price env now st symbol
  match r.1 with
  | none => (false, r.2.1)
  | some p =>
      match pos.stop_loss with
      | none => (false, r.2.1)
      | some sl =>
          let d := pyLower (pos.ptype.getD "")
          if d = "buy" ∧ p.bid ≤ sl then (true, r.2.1)
          else if d = "sell" ∧ p.ask ≥ sl then (true, r.2.1)
          else (false, r.2.1)

/-- Raw value inside an incoming instruction dictionary: either coercible to float
(the float call succeeds, yielding the rational) or not (float raises). -/
inductive RawValue where
  | numeric (q : ℚ)
  | nonNumeric (s : String)
deriving DecidableEq, Repr

/-- Result of the Python float coercion applied to a raw value. -/
def RawValue.toFloat : RawValue → Option ℚ
  | .numeric q => some q
  | .nonNumeric _ => none

/-- Raw instruction dictionary as passed to TradeExecutor.add_trade_instruction: each
required key may be absent, the four numeric keys may hold non-coercible values, and
direction and comment are optional. -/
structure RawInstruction where
  symbol : Option Symbol
  entry_price : Option RawValue
  exit_price : Option RawValue
  stop_loss : Option RawValue
  lot_size : Option RawValue
  direction : Option String
  comment : Option String
deriving DecidableEq, Repr

/-- TradeExecutor.add_trade_instruction: check the five required keys, coerce the four
numeric fields, default the direction from the entry and exit prices when absent, reject
an unrecognized direction, then append the new instruction to the backlog under the lock
and register the symbol with the monitor. Returns the success flag with the resulting
executor and monitor states; the fresh id comes from the caller-supplied counter. -/
def TradeExecutor.add_trade_instruction (env : BrokerEnv) (nextId : ℕ)
    (st : ExecutorState) (mst : MonitorState) (raw : RawInstruction) :
    Bool × ExecutorState × MonitorState :=
  match raw.symbol, raw.entry_price, raw.exit_price, raw.stop_loss, raw.lot_size with
  | some sym, some epv, some xpv, some slv, some lsv =>
      match epv.toFloat, xpv.toFloat, slv.toFloat, lsv.toFloat with
      | some ep, some xp, some sl, some ls =>
          let direction :=
            match raw.direction with
            | some d => d
            | none => if xp > ep then "buy" else "sell"
          if pyLower direction = "buy" ∨ pyLower direction = "sell" then
            let ti : TradeInstruction :=
              { id := nextId, symbol := sym, entry_price := ep, exit_price := xp,
                stop_loss := sl, lot_size := ls, direction := pyLower direction,
                comment := raw.comment.getD "Hunter Bot" }
            (true,
             { st with trade_instructions := st.trade_instructions ++ [ti] },
             (PriceMonitor.add_symbol env mst sym).2)
          else (false, st, mst)
      | _, _, _, _ => (false, st, mst)
  | _, _, _, _, _ => (false, st, mst)

/-- TradeExecutor.get_active_trades: snapshot of the active-trade registry. -/
def TradeExecutor.get_active_trades (st : ExecutorState) : List ActiveTrade :=
  st.active_trades

/-- Events observable along an executor operation: lock acquisition and release of the
trade lock, the two gateway calls named by the concurrency discipline (order placement
and position close), and the retry-delay sleep. -/
inductive Event where
  | acquire
  | release
  | closeCall (ticket : ℤ)
  | orderCall (symbol : Symbol)
  | sleepEv
deriving DecidableEq, Repr

/-- Retry policy of the executor: maximum attempts and delay between them. -/
structure RetryCfg where
  max_retries : ℕ
  retry_delay : ℚ
deriving DecidableEq, Repr

/-- Set of symbols still needed, as computed inside update_monitored_symbols: the union
of the symbols of pending instructions and of active trades. -/
def symbolsNeeded (st : ExecutorState) : List Symbol :=
  (st.active_trades.map ActiveTrade.symbol).foldl insertSym
    ((st.trade_instructions.map TradeInstruction.symbol).foldl insertSym [])

/-- TradeExecutor.update_monitored_symbols: recompute the needed symbols, add the needed
ones missing from the monitor, and remove the monitored ones no longer needed. -/
def TradeExecutor.update_monitored_symbols (env : BrokerEnv) (st : ExecutorState)
    (mst : MonitorState) : MonitorState :=
  let needed := symbolsNeeded st
  let current := mst.symbols_to_monitor
  let mst1 := (needed.filter (fun s => decide (s ∉ current))).foldl
      (fun m s => (PriceMonitor.add_symbol env m s).2) mst
  (current.filter (fun s => decide (s ∉ needed))).foldl
      (fun m s => (PriceMonitor.remove_symbol m s).2) mst1

/-- Lookup of the first active trade carrying the given ticket, as in the scan at the
top of TradeExecutor.close_trade. -/
def findTrade (trades : List ActiveTrade) (ticket : ℤ) : Option ActiveTrade :=
  trades.find? (fun t => decide (t.ticket = ticket))

/-- Retry loop of TradeExecutor.close_trade: attempt numbers count up while the
remaining budget counts down; closeRes gives the gateway close_position result per
attempt. A successful attempt commits under the lock (removing the trade and
reconciling monitored symbols); a failed attempt logs, sleeps and retries. -/
def closeLoop (closeRes : ℕ → Bool) (env : BrokerEnv) (ticket : ℤ) (tr : ActiveTrade)
    (st : ExecutorState) (mst : MonitorState) :
    ℕ → ℕ → Bool × ExecutorState × MonitorState × List Event
  | _, 0 => (false, st, mst, [])
  | attempt, remaining + 1 =>
      if closeRes attempt then
        let st' : ExecutorState := { st with active_trades := st.active_trades.erase tr }
        let mst' := TradeExecutor.update_monitored_symbols env st' mst
        (true, st', mst', [Event.closeCall ticket, Event.acquire, Event.release])
      else
        let rest := closeLoop closeRes env ticket tr st mst (attempt + 1) remaining
        (rest.1, rest.2.1, rest.2.2.1,
         Event.closeCall ticket :: Event.sleepEv :: rest.2.2.2)

/-- TradeExecutor.close_trade: find the trade by ticket under the lock, return failure
when absent, otherwise run the bounded retry loop against the gateway. -/
def TradeExecutor.close_trade (closeRes : ℕ → Bool) (env : BrokerEnv) (cfg : RetryCfg)
    (st : ExecutorState) (mst : MonitorState) (ticket : ℤ) :
    Bool × ExecutorState × MonitorState × List Event :=
  match findTrade st.active_trades ticket with
  | none => (false, st, mst, [Event.acquire, Event.release])
  | some tr =>
      let r := closeLoop closeRes env ticket tr st mst 1 cfg.max_retries
      (r.1, r.2.1, r.2.2.1, Event.acquire :: Event.release :: r.2.2.2)

/-- Retry loop of TradeExecutor.execute_trade: orderRes gives the gateway
place_market_order result per attempt. Success constructs the active trade with the
actual fill price (ask for buy, bid for sell) and the current time, then commits under
the lock; failure logs, sleeps and retries. -/
def execLoop (orderRes : ℕ → Option ℤ) (instr : TradeInstruction) (price : Price)
    (now : ℚ) (st : ExecutorState) :
    ℕ → ℕ → Bool × ExecutorState × List Event
  | _, 0 => (false, st, [])
  | attempt, remaining + 1 =>
      match orderRes attempt with
      | some ticket =>
          let trade : ActiveTrade :=
            { ticket := ticket, symbol := instr.symbol,
              entry_price := if instr.direction = "buy" then price.ask else price.bid,
              exit_price := instr.exit_price, stop_loss := instr.stop_loss,
              lot_size := instr.lot_size, direction := instr.direction,
              comment := instr.comment, entry_time := now }
          (true,
           { trade_instructions := st.trade_instructions.erase instr,
             active_trades := st.active_trades ++ [trade] },
           [Event.orderCall instr.symbol, Event.acquire, Event.release])
      | none =>
          let rest := execLoop orderRes instr price now st (attempt + 1) remaining
          (rest.1, rest.2.1,
           Event.orderCall instr.symbol :: Event.sleepEv :: rest.2.2)

/-- TradeExecutor.execute_trade: bounded retry of order placement per the config. -/
def TradeExecutor.execute_trade (orderRes : ℕ → Option ℤ) (cfg : RetryCfg)
    (instr : TradeInstruction) (price : Price) (now : ℚ) (st : ExecutorState) :
    Bool × ExecutorState × List Event :=
  execLoop orderRes instr price now st 1 cfg.max_retries

/-- Sequential execution of the snapshotted matching instructions, as in the loop at
the bottom of TradeExecutor.on_entry_condition; orderRes is indexed first by the
position of the instruction in the snapshot, then by the attempt number. -/
def execMany (orderRes : ℕ → ℕ → Option ℤ) (cfg : RetryCfg) (price : Price) (now : ℚ) :
    List TradeInstruction → ℕ → ExecutorState → ExecutorState × List Event
  | [], _, st => (st, [])
  | i :: rest, k, st =>
      let r := TradeExecutor.execute_trade (orderRes k) cfg i price now st
      let r' := execMany orderRes cfg price now rest (k + 1) r.2.1
      (r'.1, r.2.2 ++ r'.2)

/-- TradeExecutor.on_entry_condition: under the lock, snapshot the pending instructions
on the triggering symbol whose entry condition is met by the callback price (ask at or
below entry for buy, bid at or above entry for sell); after releasing the lock, execute
each matching instruction. -/
def TradeExecutor.on_entry_condition (orderRes : ℕ → ℕ → Option ℤ) (cfg : RetryCfg)
    (now : ℚ) (st : ExecutorState) (symbol : Symbol) (price : Price) :
    ExecutorState × List Event :=
  let matching := st.trade_instructions.filter (fun i =>
    decide (i.symbol = symbol ∧
      ((i.direction = "buy" ∧ price.ask ≤ i.entry_price) ∨
       (i.direction = "sell" ∧ price.bid ≥ i.entry_price))))
  let r := execMany orderRes cfg price now matching 0 st
  (r.1, Event.acquire :: Event.release :: r.2)

/-- Iteration of TradeExecutor.close_all_trades over the snapshot of active trades,
counting successful closes; closeRes is indexed by ticket then attempt. -/
def closeMany (closeRes : ℤ → ℕ → Bool) (env : BrokerEnv) (cfg : RetryCfg) :
    List ActiveTrade → ExecutorState → MonitorState →
    ℕ × ExecutorState × MonitorState × List Event
  | [], st, mst => (0, st, mst, [])
  | t :: rest, st, mst =>
      let r := TradeExecutor.close_trade (closeRes t.ticket) env cfg st mst t.ticket
      let r' := closeMany closeRes env cfg rest r.2.1 r.2.2.1
      ((if r.1 then r'.1 + 1 else r'.1), r'.2.1, r'.2.2.1, r.2.2.2 ++ r'.2.2.2)

/-- TradeExecutor.close_all_trades: while holding the trade lock, run the per-ticket
close path over a snapshot of the active registry and count the successes. -/
def TradeExecutor.close_all_trades (closeRes : ℤ → ℕ → Bool) (env : BrokerEnv)
    (cfg : RetryCfg) (st : ExecutorState) (mst : MonitorState) :
    ℕ × ExecutorState × MonitorState × List Event :=
  let r := closeMany closeRes env cfg st.active_trades st mst
  (r.1, r.2.1, r.2.2.1, Event.acquire :: (r.2.2.2 ++ [Event.release]))

/-- Lock-discipline check over a trace: tracking the nesting depth of the trade lock,
every gateway call (order placement or position close) must occur at depth zero. -/
def lockOkFrom : ℕ → List Event → Bool
  | _, [] => true
  | d, Event.acquire :: es => lockOkFrom (d + 1) es
  | d, Event.release :: es => lockOkFrom (d - 1) es
  | d, Event.closeCall _ :: es => decide (d = 0) && lockOkFrom d es
  | d, Event.orderCall _ :: es => decide (d = 0) && lockOkFrom d es
  | d, Event.sleepEv :: es => lockOkFrom d es

/-- Lock depth at the end of a trace that started at the given depth. -/
def finalDepth : ℕ → List Event → ℕ
  | d, [] => d
  | d, Event.acquire :: es => finalDepth (d + 1) es
  | d, Event.release :: es => finalDepth (d - 1) es
  | d, Event.closeCall _ :: es => finalDepth d es
  | d, Event.orderCall _ :: es => finalDepth d es
  | d, Event.sleepEv :: es => finalDepth d es

/-- Combined state of the integrated system: the executor registered as the monitor
callback sink, as wired in the TradeExecutor constructor. -/
structure SystemState where
  exec : ExecutorState
  mon : MonitorState
deriving DecidableEq, Repr

/-- Set of symbols of the open positions, as built at the top of the monitoring loop. -/
def positionSymbols (ps : List PositionRec) : List Symbol :=
  ps.foldl (fun acc p => insertSym acc p.symbol) []

/-- Position-symbol reconciliation step of the monitoring loop: every open-position
symbol missing from the watch-list is added through PriceMonitor.add_symbol. -/
def addMissingPositionSymbols (env : BrokerEnv) (positions : List PositionRec)
    (mst : MonitorState) : MonitorState :=
  (positionSymbols positions).foldl
    (fun m s =>
      if s ∈ m.symbols_to_monitor then m else (PriceMonitor.add_symbol env m s).2)
    mst

/-- Exit and stop-loss handling of the monitoring loop for one position under one
watched symbol: positions on other symbols are skipped; the exit check runs first and
on success the exit callback closes the ticket through the executor; the stop-loss
check then runs on the possibly updated state and closes likewise. -/
def posStep (env : BrokerEnv) (closeRes : ℤ → ℕ → Bool) (cfg : RetryCfg) (now : ℚ)
    (symbol : Symbol) (st : SystemState) (pos : PositionRec) : SystemState :=
  if pos.symbol = symbol then
    let rExit := PriceMonitor.check_exit_condition env now st.mon symbol pos
    let st1 : SystemState := { st with mon := rExit.2 }
    let st2 : SystemState :=
      if rExit.1 then
        let rc := TradeExecutor.close_trade (closeRes pos.ticket) env cfg
          st1.exec st1.mon pos.ticket
        { exec := rc.2.1, mon := rc.2.2.1 }
      else st1
    let rSl := PriceMonitor.check_sl_condition env now st2.mon symbol pos
    let st3 : SystemState := { st2 with mon := rSl.2 }
    if rSl.1 then
      let rc := TradeExecutor.close_trade (closeRes pos.ticket) env cfg
        st3.exec st3.mon pos.ticket
      { exec := rc.2.1, mon := rc.2.2.1 }
    else st3
  else st

/-- Per-symbol body of the monitoring loop: refresh the quote from the broker (a failed
fetch skips every check for this symbol), cache it, invoke the registered entry
callback (the executor handler), then run exit and stop-loss handling over the open
positions of this symbol. -/
def perSymbolStep (env : BrokerEnv) (positions : List PositionRec)
    (orderRes : Symbol → ℕ → ℕ → Option ℤ) (closeRes : ℤ → ℕ → Bool) (cfg : RetryCfg)
    (now : ℚ) (st : SystemState) (symbol : Symbol) : SystemState :=
  match env.get_price symbol with
  | none => st
  | some price =>
      let mon1 : MonitorState :=
        { st.mon with price_data := updateAssoc st.mon.price_data symbol price }
      let rEntry := TradeExecutor.on_entry_condition (orderRes symbol) cfg now
        st.exec symbol price
      let st1 : SystemState := { exec := rEntry.1, mon := mon1 }
      positions.foldl (posStep env closeRes cfg now symbol) st1

/-- One full cycle of PriceMonitor.monitoring_loop, given the open positions reported
by the gateway: reconcile position symbols into the watch-list, then process a snapshot
of the watch-list symbol by symbol. -/
def pollCycle (env : BrokerEnv) (positions : List PositionRec)
    (orderRes : Symbol → ℕ → ℕ → Option ℤ) (closeRes : ℤ → ℕ → Bool) (cfg : RetryCfg)
    (now : ℚ) (st : SystemState) : SystemState :=
  let mon0 := addMissingPositionSymbols env positions st.mon
  let st0 : SystemState := { st with mon := mon0 }
  mon0.symbols_to_monitor.foldl
    (perSymbolStep env positions orderRes closeRes cfg now) st0

/-- Inputs consumed by one cycle of the monitoring loop: the gateway environment, the
open positions it reports, the wall-clock time, and the gateway results fed to the
executor callbacks. -/
structure CycleInput where
  env : BrokerEnv
  positions : List PositionRec
  now : ℚ
  orderRes : Symbol → ℕ → ℕ → Option ℤ
  closeRes : ℤ → ℕ → Bool

/-- One cycle of the monitoring loop driven by a bundled input. -/
def pollCycleCI (cfg : RetryCfg) (ci : CycleInput) (st : SystemState) : SystemState :=
  pollCycle ci.env ci.positions ci.orderRes ci.closeRes cfg ci.now st

/-- PriceMonitor.monitoring_loop: while the stop signal is unset (modelled by the fuel),
a cycle observing the gateway disconnected breaks out of the loop entirely; otherwise
the cycle body runs and the loop sleeps and continues. Returns the final state and the
number of cycle bodies that ran. -/
def runLoop (cfg : RetryCfg) (inputs : ℕ → CycleInput) :
    ℕ → ℕ → SystemState → SystemState × ℕ
  | 0, _, st => (st, 0)
  | fuel + 1, idx, st =>
      if (inputs idx).env.connected then
        let r := runLoop cfg inputs fuel (idx + 1) (pollCycleCI cfg (inputs idx) st)
        (r.1, r.2 + 1)
      else (st, 0)

/-- C10: for every symbol whose cached quote entry lacks a time field, and with the
broker connected, PriceMonitor.get_price returns that cached entry unchanged and
without contacting the broker, regardless of the current time: the 5-second freshness
check applies only to cache entries carrying a time field. -/
theorem C10_get_price_timeless_cache (env : BrokerEnv) (now : ℚ) (mst : MonitorState)
    (symbol : Symbol) (entry : Price)
    (hconn : env.connected = true)
    (hcache : lookupPrice mst.price_data symbol = some entry)
    (htime : entry.time = none) :
    PriceMonitor.get_price env now mst symbol = (some entry, mst, false) := by
  unfold PriceMonitor.get_price
  rw [hconn, hcache]
  simp [htime]

/-- Witness for C10 at a concrete stale cache entry without a time key. -/
theorem C10_witness :
    (BrokerEnv.mk true (fun _ => none)).connected = true ∧
    lookupPrice (MonitorState.mk ["EURUSD"] [("EURUSD", Price.mk 1 2 none)]).price_data
      "EURUSD" = some (Price.mk 1 2 none) ∧
    (Price.mk 1 2 none).time = none ∧
    PriceMonitor.get_price (BrokerEnv.mk true (fun _ => none)) 1000000
      (MonitorState.mk ["EURUSD"] [("EURUSD", Price.mk 1 2 none)]) "EURUSD"
      = (some (Price.mk 1 2 none),
         MonitorState.mk ["EURUSD"] [("EURUSD", Price.mk 1 2 none)], false) :=
  ⟨rfl, rfl, rfl,
   C10_get_price_timeless_cache (BrokerEnv.mk true (fun _ => none)) 1000000
     (MonitorState.mk ["EURUSD"] [("EURUSD", Price.mk 1 2 none)]) "EURUSD"
     (Price.mk 1 2 none) rfl rfl rfl⟩

/-- C9: for every ticket absent from the active-trade registry, close_trade returns
false with the executor state, the monitor state and an empty gateway/sleep trace
unchanged: no close_position call, no sleep, no retry, no state mutation. -/
theorem C9_close_unknown_ticket (closeRes : ℕ → Bool) (env : BrokerEnv)
    (cfg : RetryCfg) (st : ExecutorState) (mst : MonitorState) (ticket : ℤ)
    (habs : findTrade st.active_trades ticket = none) :
    TradeExecutor.close_trade closeRes env cfg st mst ticket
      = (false, st, mst, [Event.acquire, Event.release]) := by
  unfold TradeExecutor.close_trade
  rw [habs]

/-- Witness for C9 at an empty registry. -/
theorem C9_witness :
    findTrade (ExecutorState.mk [] []).active_trades 7 = none ∧
    TradeExecutor.close_trade (fun _ => true) (BrokerEnv.mk true (fun _ => none))
      (RetryCfg.mk 3 1) (ExecutorState.mk [] []) (MonitorState.mk [] []) 7
      = (false, ExecutorState.mk [] [], MonitorState.mk [] [],
         [Event.acquire, Event.release]) :=
  ⟨rfl,
   C9_close_unknown_ticket (fun _ => true) (BrokerEnv.mk true (fun _ => none))
     (RetryCfg.mk 3 1) (ExecutorState.mk [] []) (MonitorState.mk [] []) 7 rfl⟩

/-- C8: with the quote lookup succeeding with quote q, the trigger predicates are
boundary-inclusive comparisons: entry holds for buy iff ask is at most the entry price
and for sell iff bid is at least it; take profit holds for a buy position iff bid is at
least the take profit and for a sell iff ask is at most it; stop loss holds for a buy
position iff bid is at most the stop loss and for a sell iff ask is at least it. -/
theorem C8_trigger_predicates (env : BrokerEnv) (now : ℚ) (mst : MonitorState)
    (symbol : Symbol) (q : Price) (e tp sl : ℚ) (t : ℤ) (slp tpp : Option ℚ)
    (hq : (PriceMonitor.get_price env now mst symbol).1 = some q) :
    ((PriceMonitor.check_entry_condition env now mst symbol e (some "buy")).1 = true
       ↔ q.ask ≤ e) ∧
    ((PriceMonitor.check_entry_condition env now mst symbol e (some "sell")).1 = true
       ↔ q.bid ≥ e) ∧
    ((PriceMonitor.check_exit_condition env now mst symbol
        (PositionRec.mk t symbol (some "buy") slp (some tp))).1 = true ↔ q.bid ≥ tp) ∧
    ((PriceMonitor.check_exit_condition env now mst symbol
        (PositionRec.mk t symbol (some "sell") slp (some tp))).1 = true ↔ q.ask ≤ tp) ∧
    ((PriceMonitor.check_sl_condition env now mst symbol
        (PositionRec.mk t symbol (some "buy") (some sl) tpp)).1 = true ↔ q.bid ≤ sl) ∧
    ((PriceMonitor.check_sl_condition env now mst symbol
        (PositionRec.mk t symbol (some "sell") (some sl) tpp)).1 = true ↔ q.ask ≥ sl) := by
  have hbuy : pyLower "buy" = "buy" := by decide
  have hsell : pyLower "sell" = "sell" := by decide
  have hbs : (("buy" : String) ≠ "sell") := by decide
  have hsb : (("sell" : String) ≠ "buy") := by decide
  refine ⟨?_, ?_, ?_, ?_, ?_, ?_⟩
  · by_cases h : q.ask ≤ e <;>
      simp [PriceMonitor.check_entry_condition, hq, hbuy, hbs, h]
  · by_cases h : q.bid ≥ e <;>
      simp [PriceMonitor.check_entry_condition, hq, hsell, hsb, h]
  · by_cases h : q.bid ≥ tp <;>
      simp [PriceMonitor.check_exit_condition, hq, hbuy, hbs, h]
  · by_cases h : q.ask ≤ tp <;>
      simp [PriceMonitor.check_exit_condition, hq, hsell, hsb, h]
  · by_cases h : q.bid ≤ sl <;>
      simp [PriceMonitor.check_sl_condition, hq, hbuy, hbs, h]
  · by_cases h : q.ask ≥ sl <;>
      simp [PriceMonitor.check_sl_condition, hq, hsell, hsb, h]

/-- Witness for C8 at a concrete connected environment and cached quote. -/
theorem C8_witness :
    (PriceMonitor.get_price (BrokerEnv.mk true (fun _ => none)) 0
       (MonitorState.mk ["EURUSD"] [("EURUSD", Price.mk 10 11 none)]) "EURUSD").1
      = some (Price.mk 10 11 none) ∧
    ((PriceMonitor.check_entry_condition (BrokerEnv.mk true (fun _ => none)) 0
       (MonitorState.mk ["EURUSD"] [("EURUSD", Price.mk 10 11 none)]) "EURUSD"
       12 (some "buy")).1 = true ↔ (Price.mk 10 11 none).ask ≤ 12) :=
  ⟨rfl,
   (C8_trigger_predicates (BrokerEnv.mk true (fun _ => none)) 0
     (MonitorState.mk ["EURUSD"] [("EURUSD", Price.mk 10 11 none)]) "EURUSD"
     (Price.mk 10 11 none) 12 5 5 1 none none rfl).1⟩

/-- C7: for every instruction accepted by add_trade_instruction with the direction
field omitted, the instruction appended to the backlog carries direction buy exactly
when the coerced exit price exceeds the coerced entry price, and sell otherwise. -/
theorem C7_default_direction (env : BrokerEnv) (nextId : ℕ) (st : ExecutorState)
    (mst : MonitorState) (raw : RawInstruction) (epv xpv : RawValue) (ep xp : ℚ)
    (hdir : raw.direction = none)
    (hep : raw.entry_price = some epv) (hepf : epv.toFloat = some ep)
    (hxp : raw.exit_price = some xpv) (hxpf : xpv.toFloat = some xp)
    (hok : (TradeExecutor.add_trade_instruction env nextId st mst raw).1 = true) :
    ∃ ti : TradeInstruction,
      (TradeExecutor.add_trade_instruction env nextId st mst raw).2.1.trade_instructions
        = st.trade_instructions ++ [ti] ∧
      ti.direction = (if xp > ep then "buy" else "sell") := by
  have hb : pyLower "buy" = "buy" := by decide
  have hs : pyLower "sell" = "sell" := by decide
  unfold TradeExecutor.add_trade_instruction at hok ⊢
  rw [hep, hxp, hdir] at hok ⊢
  cases hsym : raw.symbol with
  | none => simp [hsym] at hok
  | some sym =>
    simp only [hsym] at hok ⊢
    cases hsl : raw.stop_loss with
    | none => simp [hsl] at hok
    | some slv =>
      simp only [hsl] at hok ⊢
      cases hls : raw.lot_size with
      | none => simp [hls] at hok
      | some lsv =>
        simp only [hls, hepf, hxpf] at hok ⊢
        cases hslf : slv.toFloat with
        | none => simp [hslf] at hok
        | some slf =>
          simp only [hslf] at hok ⊢
          cases hlsf : lsv.toFloat with
          | none => simp [hlsf] at hok
          | some lsf =>
            simp only [hlsf] at hok ⊢
            by_cases hc : xp > ep
            · exact ⟨⟨nextId, sym, ep, xp, slf, lsf, "buy",
                raw.comment.getD "Hunter Bot"⟩, by simp [hc, hb], by simp [hc]⟩
            · exact ⟨⟨nextId, sym, ep, xp, slf, lsf, "sell",
                raw.comment.getD "Hunter Bot"⟩, by simp [hc, hs], by simp [hc]⟩

/-- Witness for C7 at a concrete instruction with direction omitted and exit above
entry, yielding a buy. -/
theorem C7_witness :
    (RawInstruction.mk (some "EURUSD") (some (RawValue.numeric 10))
        (some (RawValue.numeric 12)) (some (RawValue.numeric 8))
        (some (RawValue.numeric 1)) none none).direction = none ∧
    (TradeExecutor.add_trade_instruction (BrokerEnv.mk true (fun _ => none)) 0
        (ExecutorState.mk [] []) (MonitorState.mk [] [])
        (RawInstruction.mk (some "EURUSD") (some (RawValue.numeric 10))
          (some (RawValue.numeric 12)) (some (RawValue.numeric 8))
          (some (RawValue.numeric 1)) none none)).1 = true ∧
    ∃ ti : TradeInstruction,
      (TradeExecutor.add_trade_instruction (BrokerEnv.mk true (fun _ => none)) 0
          (ExecutorState.mk [] []) (MonitorState.mk [] [])
          (RawInstruction.mk (some "EURUSD") (some (RawValue.numeric 10))
            (some (RawValue.numeric 12)) (some (RawValue.numeric 8))
            (some (RawValue.numeric 1)) none none)).2.1.trade_instructions
        = (ExecutorState.mk [] []).trade_instructions ++ [ti] ∧
      ti.direction = (if (12 : ℚ) > 10 then "buy" else "sell") :=
  ⟨rfl, by decide,
   C7_default_direction (BrokerEnv.mk true (fun _ => none)) 0
     (ExecutorState.mk [] []) (MonitorState.mk [] [])
     (RawInstruction.mk (some "EURUSD") (some (RawValue.numeric 10))
       (some (RawValue.numeric 12)) (some (RawValue.numeric 8))
       (some (RawValue.numeric 1)) none none)
     (RawValue.numeric 10) (RawValue.numeric 12) 10 12 rfl rfl rfl rfl rfl
     (by decide)⟩

/-- C6: for every input instruction failing validation — a missing required field, a
numeric field not coercible to float, or an unrecognized direction value —
add_trade_instruction returns false and leaves the backlog, the registry and the
monitor state exactly as they were. -/
theorem C6_validation_failure_no_mutation (env : BrokerEnv) (nextId : ℕ)
    (st : ExecutorState) (mst : MonitorState) (raw : RawInstruction)
    (hfail :
      raw.symbol = none ∨ raw.entry_price = none ∨ raw.exit_price = none ∨
      raw.stop_loss = none ∨ raw.lot_size = none ∨
      (∃ v, raw.entry_price = some v ∧ v.toFloat = none) ∨
      (∃ v, raw.exit_price = some v ∧ v.toFloat = none) ∨
      (∃ v, raw.stop_loss = some v ∧ v.toFloat = none) ∨
      (∃ v, raw.lot_size = some v ∧ v.toFloat = none) ∨
      (∃ d, raw.direction = some d ∧ pyLower d ≠ "buy" ∧ pyLower d ≠ "sell")) :
    TradeExecutor.add_trade_instruction env nextId st mst raw = (false, st, mst) := by
  have hb : pyLower "buy" = "buy" := by decide
  have hs : pyLower "sell" = "sell" := by decide
  unfold TradeExecutor.add_trade_instruction
  cases hsym : raw.symbol with
  | none => rfl
  | some sym =>
  cases hep : raw.entry_price with
  | none => rfl
  | some epv =>
  cases hxp : raw.exit_price with
  | none => rfl
  | some xpv =>
  cases hsl : raw.stop_loss with
  | none => rfl
  | some slv =>
  cases hls : raw.lot_size with
  | none => rfl
  | some lsv =>
  cases hepf : epv.toFloat with
  | none => simp [hepf]
  | some ep =>
  cases hxpf : xpv.toFloat with
  | none => simp [hepf, hxpf]
  | some xp =>
  cases hslf : slv.toFloat with
  | none => simp [hepf, hxpf, hslf]
  | some sl =>
  cases hlsf : lsv.toFloat with
  | none => simp [hepf, hxpf, hslf, hlsf]
  | some ls =>
  -- every required field is present and coercible: the failure must come from the
  -- direction disjunct, and the instruction must carry an explicit bad direction
  rcases hfail with h | h | h | h | h | ⟨v, hv, hvf⟩ | ⟨v, hv, hvf⟩ | ⟨v, hv, hvf⟩ |
    ⟨v, hv, hvf⟩ | ⟨d0, hd0, hb0, hs0⟩
  · rw [hsym] at h; exact absurd h (by simp)
  · rw [hep] at h; exact absurd h (by simp)
  · rw [hxp] at h; exact absurd h (by simp)
  · rw [hsl] at h; exact absurd h (by simp)
  · rw [hls] at h; exact absurd h (by simp)
  · rw [hep] at hv; cases hv; rw [hepf] at hvf; exact absurd hvf (by simp)
  · rw [hxp] at hv; cases hv; rw [hxpf] at hvf; exact absurd hvf (by simp)
  · rw [hsl] at hv; cases hv; rw [hslf] at hvf; exact absurd hvf (by simp)
  · rw [hls] at hv; cases hv; rw [hlsf] at hvf; exact absurd hvf (by simp)
  · have hcond : ¬ (pyLower d0 = "buy" ∨ pyLower d0 = "sell") := by
      rintro (hx | hx)
      · exact hb0 hx
      · exact hs0 hx
    simp [hd0, hepf, hxpf, hslf, hlsf, hcond]

/-- Witness for C6 at a concrete instruction whose lot size is not numeric. -/
theorem C6_witness :
    (∃ v, (RawInstruction.mk (some "EURUSD") (some (RawValue.numeric 10))
        (some (RawValue.numeric 12)) (some (RawValue.numeric 8))
        (some (RawValue.nonNumeric "abc")) none none).lot_size = some v ∧
        v.toFloat = none) ∧
    TradeExecutor.add_trade_instruction (BrokerEnv.mk true (fun _ => none)) 0
        (ExecutorState.mk [] []) (MonitorState.mk [] [])
        (RawInstruction.mk (some "EURUSD") (some (RawValue.numeric 10))
          (some (RawValue.numeric 12)) (some (RawValue.numeric 8))
          (some (RawValue.nonNumeric "abc")) none none)
      = (false, ExecutorState.mk [] [], MonitorState.mk [] []) :=
  ⟨⟨RawValue.nonNumeric "abc", rfl, rfl⟩,
   C6_validation_failure_no_mutation (BrokerEnv.mk true (fun _ => none)) 0
     (ExecutorState.mk [] []) (MonitorState.mk [] [])
     (RawInstruction.mk (some "EURUSD") (some (RawValue.numeric 10))
       (some (RawValue.numeric 12)) (some (RawValue.numeric 8))
       (some (RawValue.nonNumeric "abc")) none none)
     (Or.inr (Or.inr (Or.inr (Or.inr (Or.inr (Or.inr (Or.inr (Or.inr (Or.inl
       ⟨RawValue.nonNumeric "abc", rfl, rfl⟩)))))))))⟩

/-- Helper: the close retry loop against a gateway failing every attempt leaves both
states untouched, returns failure, and its trace is one close call followed by one
sleep per configured attempt. -/
theorem closeLoop_allfail (closeRes : ℕ → Bool) (env : BrokerEnv) (ticket : ℤ)
    (tr : ActiveTrade) (st : ExecutorState) (mst : MonitorState)
    (h : ∀ k, closeRes k = false) :
    ∀ n a, closeLoop closeRes env ticket tr st mst a n
      = (false, st, mst,
         (List.replicate n [Event.closeCall ticket, Event.sleepEv]).flatten) := by
  intro n
  induction n with
  | zero => intro a; simp [closeLoop]
  | succ n ih =>
      intro a
      simp [closeLoop, h a, ih (a + 1), List.replicate_succ]

/-- Helper: the order retry loop against a gateway failing every attempt leaves the
state untouched, returns failure, and its trace is one order call followed by one
sleep per configured attempt. -/
theorem execLoop_allfail (orderRes : ℕ → Option ℤ) (instr : TradeInstruction)
    (price : Price) (now : ℚ) (st : ExecutorState)
    (h : ∀ k, orderRes k = none) :
    ∀ n a, execLoop orderRes instr price now st a n
      = (false, st,
         (List.replicate n [Event.orderCall instr.symbol, Event.sleepEv]).flatten) := by
  intro n
  induction n with
  | zero => intro a; simp [execLoop]
  | succ n ih =>
      intro a
      simp [execLoop, h a, ih (a + 1), List.replicate_succ]

/-- C3 counterexample: with two configured attempts and a gateway failing every close,
the close path emits a sleep after each failed attempt including the last, so the
number of sleeps is the number of attempts and not one less, contradicting the claim
that sleeps occur only between consecutive attempts. -/
theorem C3_counterexample :
    (TradeExecutor.close_trade (fun _ => false)
        (BrokerEnv.mk true (fun _ => some (Price.mk 1 2 none))) (RetryCfg.mk 2 1)
        (ExecutorState.mk [] [ActiveTrade.mk 1 "EURUSD" 1 2 1 1 "buy" "c" 0])
        (MonitorState.mk ["EURUSD"] []) 1).2.2.2
      = [Event.acquire, Event.release, Event.closeCall 1, Event.sleepEv,
         Event.closeCall 1, Event.sleepEv] ∧
    ¬ ((TradeExecutor.close_trade (fun _ => false)
        (BrokerEnv.mk true (fun _ => some (Price.mk 1 2 none))) (RetryCfg.mk 2 1)
        (ExecutorState.mk [] [ActiveTrade.mk 1 "EURUSD" 1 2 1 1 "buy" "c" 0])
        (MonitorState.mk ["EURUSD"] []) 1).2.2.2.countP
          (fun e => decide (e = Event.sleepEv))
        = (RetryCfg.mk 2 1).max_retries - 1) := by
  constructor
  · rfl
  · decide

/-- C3 (amended): against a gateway failing every attempt, closing a registered trade
makes exactly maxRetries close attempts with a retryDelay sleep after each failed
attempt including the last, returns failure and leaves the trade in the registry and
the monitor untouched; symmetrically order placement makes exactly maxRetries attempts
with a sleep after each failure and on exhaustion leaves the backlog unchanged with
the instruction still pending. -/
theorem C3_retry_exhaustion (closeRes : ℕ → Bool) (orderRes : ℕ → Option ℤ)
    (env : BrokerEnv) (cfg : RetryCfg) (st : ExecutorState) (mst : MonitorState)
    (ticket : ℤ) (tr : ActiveTrade) (instr : TradeInstruction) (price : Price)
    (now : ℚ)
    (hclose : ∀ k, closeRes k = false)
    (horder : ∀ k, orderRes k = none)
    (hfind : findTrade st.active_trades ticket = some tr)
    (hmem : instr ∈ st.trade_instructions) :
    TradeExecutor.close_trade closeRes env cfg st mst ticket
      = (false, st, mst, Event.acquire :: Event.release ::
         (List.replicate cfg.max_retries
           [Event.closeCall ticket, Event.sleepEv]).flatten) ∧
    tr ∈ st.active_trades ∧
    TradeExecutor.execute_trade orderRes cfg instr price now st
      = (false, st,
         (List.replicate cfg.max_retries
           [Event.orderCall instr.symbol, Event.sleepEv]).flatten) ∧
    instr ∈ st.trade_instructions := by
  refine ⟨?_, ?_, ?_, hmem⟩
  · unfold TradeExecutor.close_trade
    rw [hfind]
    simp [closeLoop_allfail closeRes env ticket tr st mst hclose]
  · unfold findTrade at hfind
    exact List.mem_of_find?_eq_some hfind
  · unfold TradeExecutor.execute_trade
    rw [execLoop_allfail orderRes instr price now st horder]

/-- Witness for C3 (amended) at a concrete registry, backlog and failing gateway. -/
theorem C3_witness :
    findTrade (ExecutorState.mk
        [TradeInstruction.mk 0 "EURUSD" 10 12 8 1 "buy" "c"]
        [ActiveTrade.mk 1 "EURUSD" 1 2 1 1 "buy" "c" 0]).active_trades 1
      = some (ActiveTrade.mk 1 "EURUSD" 1 2 1 1 "buy" "c" 0) ∧
    TradeExecutor.close_trade (fun _ => false)
        (BrokerEnv.mk true (fun _ => some (Price.mk 1 2 none))) (RetryCfg.mk 3 1)
        (ExecutorState.mk [TradeInstruction.mk 0 "EURUSD" 10 12 8 1 "buy" "c"]
          [ActiveTrade.mk 1 "EURUSD" 1 2 1 1 "buy" "c" 0])
        (MonitorState.mk ["EURUSD"] []) 1
      = (false,
         ExecutorState.mk [TradeInstruction.mk 0 "EURUSD" 10 12 8 1 "buy" "c"]
           [ActiveTrade.mk 1 "EURUSD" 1 2 1 1 "buy" "c" 0],
         MonitorState.mk ["EURUSD"] [],
         Event.acquire :: Event.release ::
           (List.replicate (RetryCfg.mk 3 1).max_retries
             [Event.closeCall 1, Event.sleepEv]).flatten) ∧
    TradeExecutor.execute_trade (fun _ => none) (RetryCfg.mk 3 1)
        (TradeInstruction.mk 0 "EURUSD" 10 12 8 1 "buy" "c") (Price.mk 1 2 none) 0
        (ExecutorState.mk [TradeInstruction.mk 0 "EURUSD" 10 12 8 1 "buy" "c"]
          [ActiveTrade.mk 1 "EURUSD" 1 2 1 1 "buy" "c" 0])
      = (false,
         ExecutorState.mk [TradeInstruction.mk 0 "EURUSD" 10 12 8 1 "buy" "c"]
           [ActiveTrade.mk 1 "EURUSD" 1 2 1 1 "buy" "c" 0],
         (List.replicate (RetryCfg.mk 3 1).max_retries
           [Event.orderCall "EURUSD", Event.sleepEv]).flatten) :=
  have h := C3_retry_exhaustion (fun _ => false) (fun _ => none)
    (BrokerEnv.mk true (fun _ => some (Price.mk 1 2 none))) (RetryCfg.mk 3 1)
    (ExecutorState.mk [TradeInstruction.mk 0 "EURUSD" 10 12 8 1 "buy" "c"]
      [ActiveTrade.mk 1 "EURUSD" 1 2 1 1 "buy" "c" 0])
    (MonitorState.mk ["EURUSD"] []) 1
    (ActiveTrade.mk 1 "EURUSD" 1 2 1 1 "buy" "c" 0)
    (TradeInstruction.mk 0 "EURUSD" 10 12 8 1 "buy" "c") (Price.mk 1 2 none) 0
    (fun _ => rfl) (fun _ => rfl) rfl (by decide)
  ⟨rfl, h.1, h.2.2.1⟩

/-- Helper: checking a trace after an appended segment splits into checking the first
segment and checking the second from the depth the first one reaches. -/
theorem lockOkFrom_append :
    ∀ (es fs : List Event) (d : ℕ),
      lockOkFrom d (es ++ fs)
        = (lockOkFrom d es && lockOkFrom (finalDepth d es) fs) := by
  intro es
  induction es with
  | nil => intro fs d; simp [lockOkFrom, finalDepth]
  | cons e rest ih =>
      intro fs d
      cases e <;> simp [lockOkFrom, finalDepth, ih, Bool.and_assoc]

/-- Helper: every trace of the close retry loop keeps each gateway call at lock depth
zero and returns to depth zero. -/
theorem closeLoop_lockOk (closeRes : ℕ → Bool) (env : BrokerEnv) (ticket : ℤ)
    (tr : ActiveTrade) (st : ExecutorState) (mst : MonitorState) :
    ∀ n a,
      lockOkFrom 0 (closeLoop closeRes env ticket tr st mst a n).2.2.2 = true ∧
      finalDepth 0 (closeLoop closeRes env ticket tr st mst a n).2.2.2 = 0 := by
  intro n
  induction n with
  | zero => intro a; simp [closeLoop, lockOkFrom, finalDepth]
  | succ n ih =>
      intro a
      by_cases h : closeRes a = true
      · simp [closeLoop, h, lockOkFrom, finalDepth]
      · have h' : closeRes a = false := by
          cases hh : closeRes a
          · rfl
          · exact absurd hh h
        simp [closeLoop, h', lockOkFrom, finalDepth, (ih (a + 1)).1, (ih (a + 1)).2]

/-- Helper: every trace of the order retry loop keeps each gateway call at lock depth
zero and returns to depth zero. -/
theorem execLoop_lockOk (orderRes : ℕ → Option ℤ) (instr : TradeInstruction)
    (price : Price) (now : ℚ) (st : ExecutorState) :
    ∀ n a,
      lockOkFrom 0 (execLoop orderRes instr price now st a n).2.2 = true ∧
      finalDepth 0 (execLoop orderRes instr price now st a n).2.2 = 0 := by
  intro n
  induction n with
  | zero => intro a; simp [execLoop, lockOkFrom, finalDepth]
  | succ n ih =>
      intro a
      cases h : orderRes a with
      | some t => simp [execLoop, h, lockOkFrom, finalDepth]
      | none => simp [execLoop, h, lockOkFrom, finalDepth, (ih (a + 1)).1, (ih (a + 1)).2]

/-- Helper: the depth reached after an appended segment is the depth reached by the
second segment when started from the depth reached by the first. -/
theorem finalDepth_append :
    ∀ (es fs : List Event) (d : ℕ),
      finalDepth d (es ++ fs) = finalDepth (finalDepth d es) fs := by
  intro es
  induction es with
  | nil => intro fs d; simp [finalDepth]
  | cons e rest ih =>
      intro fs d
      cases e <;> simp [finalDepth, ih]

/-- Helper: executing any snapshot of matching instructions keeps each gateway call at
lock depth zero and returns to depth zero. -/
theorem execMany_lockOk (orderRes : ℕ → ℕ → Option ℤ) (cfg : RetryCfg) (price : Price)
    (now : ℚ) :
    ∀ (l : List TradeInstruction) (k : ℕ) (st : ExecutorState),
      lockOkFrom 0 (execMany orderRes cfg price now l k st).2 = true ∧
      finalDepth 0 (execMany orderRes cfg price now l k st).2 = 0 := by
  intro l
  induction l with
  | nil => intro k st; simp [execMany, lockOkFrom, finalDepth]
  | cons i rest ih =>
      intro k st
      have h1 := execLoop_lockOk (orderRes k) i price now st cfg.max_retries 1
      have h2 := ih (k + 1)
        (TradeExecutor.execute_trade (orderRes k) cfg i price now st).2.1
      unfold execMany
      rw [lockOkFrom_append, finalDepth_append]
      unfold TradeExecutor.execute_trade at *
      rw [h1.1, h1.2, h2.1, h2.2]
      exact ⟨rfl, rfl⟩

/-- C1 counterexample: close_all_trades holds the trade lock around the per-ticket
close path, so with a single registered trade and a gateway accepting the close, the
close_position call happens at lock depth one: the lock-discipline check over its
trace fails, refuting the claim that no gateway call ever occurs under the lock. -/
theorem C1_counterexample :
    lockOkFrom 0 (TradeExecutor.close_all_trades (fun _ _ => true)
        (BrokerEnv.mk true (fun _ => some (Price.mk 1 2 none))) (RetryCfg.mk 3 1)
        (ExecutorState.mk [] [ActiveTrade.mk 1 "EURUSD" 1 2 1 1 "buy" "c" 0])
        (MonitorState.mk ["EURUSD"] [])).2.2.2 = false := by
  rfl

/-- C1 (amended): the snapshot-release-commit discipline does hold on the single-ticket
close path and on the entry-callback handler: every gateway call in any trace of
close_trade or on_entry_condition occurs with the trade lock free; close_all_trades is
the exception, as its gateway calls run under the lock. -/
theorem C1_lock_discipline (closeRes : ℕ → Bool) (orderRes : ℕ → ℕ → Option ℤ)
    (env : BrokerEnv) (cfg : RetryCfg) (st : ExecutorState) (mst : MonitorState)
    (ticket : ℤ) (symbol : Symbol) (price : Price) (now : ℚ) :
    lockOkFrom 0 (TradeExecutor.close_trade closeRes env cfg st mst ticket).2.2.2
      = true ∧
    lockOkFrom 0
        (TradeExecutor.on_entry_condition orderRes cfg now st symbol price).2
      = true := by
  constructor
  · unfold TradeExecutor.close_trade
    cases hfind : findTrade st.active_trades ticket with
    | none => rfl
    | some tr =>
        have h := closeLoop_lockOk closeRes env ticket tr st mst cfg.max_retries 1
        simp [lockOkFrom, h.1]
  · unfold TradeExecutor.on_entry_condition
    have h := execMany_lockOk orderRes cfg price now
      (st.trade_instructions.filter (fun i =>
        decide (i.symbol = symbol ∧
          ((i.direction = "buy" ∧ price.ask ≤ i.entry_price) ∨
           (i.direction = "sell" ∧ price.bid ≥ i.entry_price))))) 0 st
    simpa [lockOkFrom] using h.1

/-- Helper: membership after a set insertion. -/
theorem mem_insertSym (l : List Symbol) (s x : Symbol) :
    x ∈ insertSym l s ↔ x ∈ l ∨ x = s := by
  unfold insertSym
  by_cases h : s ∈ l
  · simp only [if_pos h]
    constructor
    · exact Or.inl
    · rintro (hx | rfl)
      · exact hx
      · exact h
  · simp [if_neg h]

/-- Helper: set insertion keeps the list duplicate-free. -/
theorem nodup_insertSym (l : List Symbol) (s : Symbol) (hl : l.Nodup) :
    (insertSym l s).Nodup := by
  unfold insertSym
  by_cases h : s ∈ l
  · simpa [h] using hl
  · simp [h, List.nodup_append, hl]

/-- Helper: membership after folding set insertions over a list. -/
theorem mem_foldl_insertSym :
    ∀ (l acc : List Symbol) (x : Symbol),
      x ∈ l.foldl insertSym acc ↔ x ∈ acc ∨ x ∈ l := by
  intro l
  induction l with
  | nil => intro acc x; simp
  | cons s rest ih =>
      intro acc x
      rw [List.foldl_cons, ih, mem_insertSym, List.mem_cons]
      constructor
      · rintro ((hx | rfl) | hr)
        · exact Or.inl hx
        · exact Or.inr (Or.inl rfl)
        · exact Or.inr (Or.inr hr)
      · rintro (hx | rfl | hr)
        · exact Or.inl (Or.inl hx)
        · exact Or.inl (Or.inr rfl)
        · exact Or.inr hr

/-- Helper: the needed-symbol set contains exactly the symbols referenced by a pending
instruction or an active trade. -/
theorem mem_symbolsNeeded (st : ExecutorState) (x : Symbol) :
    x ∈ symbolsNeeded st ↔
      (∃ i ∈ st.trade_instructions, i.symbol = x) ∨
      (∃ t ∈ st.active_trades, t.symbol = x) := by
  unfold symbolsNeeded
  rw [mem_foldl_insertSym, mem_foldl_insertSym]
  simp [List.mem_map, eq_comm]

/-- Helper: membership in the watch-list after add_symbol: the symbol enters exactly
when the broker is connected and its quote fetch succeeds. -/
theorem add_symbol_mem (env : BrokerEnv) (m : MonitorState) (s x : Symbol) :
    x ∈ (PriceMonitor.add_symbol env m s).2.symbols_to_monitor ↔
      x ∈ m.symbols_to_monitor ∨
        (x = s ∧ env.connected = true ∧ (env.get_price s).isSome = true) := by
  unfold PriceMonitor.add_symbol
  cases hconn : env.connected with
  | false => simp
  | true =>
      cases hg : env.get_price s with
      | none => simp [hg]
      | some p => simp [hg, mem_insertSym]

/-- Helper: add_symbol keeps the watch-list duplicate-free. -/
theorem add_symbol_nodup (env : BrokerEnv) (m : MonitorState) (s : Symbol)
    (hm : m.symbols_to_monitor.Nodup) :
    (PriceMonitor.add_symbol env m s).2.symbols_to_monitor.Nodup := by
  unfold PriceMonitor.add_symbol
  cases hconn : env.connected with
  | false => simpa using hm
  | true =>
      cases hg : env.get_price s with
      | none => simpa [hg] using hm
      | some p => simpa [hg] using nodup_insertSym _ s hm

/-- Helper: membership in a duplicate-free watch-list after remove_symbol. -/
theorem remove_symbol_mem (m : MonitorState) (s x : Symbol)
    (hm : m.symbols_to_monitor.Nodup) :
    x ∈ (PriceMonitor.remove_symbol m s).2.symbols_to_monitor ↔
      x ∈ m.symbols_to_monitor ∧ x ≠ s := by
  unfold PriceMonitor.remove_symbol
  by_cases h : s ∈ m.symbols_to_monitor
  · simp only [if_pos h]
    rw [List.Nodup.mem_erase_iff hm]
    exact and_comm
  · simp only [if_neg h]
    constructor
    · intro hx
      exact ⟨hx, fun he => h (he ▸ hx)⟩
    · exact fun hx => hx.1

/-- Helper: remove_symbol keeps the watch-list duplicate-free. -/
theorem remove_symbol_nodup (m : MonitorState) (s : Symbol)
    (hm : m.symbols_to_monitor.Nodup) :
    (PriceMonitor.remove_symbol m s).2.symbols_to_monitor.Nodup := by
  unfold PriceMonitor.remove_symbol
  by_cases h : s ∈ m.symbols_to_monitor
  · simpa [h] using hm.erase s
  · simpa [h] using hm

/-- Helper: membership after the addition fold of update_monitored_symbols. -/
theorem foldAdd_mem (env : BrokerEnv) :
    ∀ (l : List Symbol) (m : MonitorState) (x : Symbol),
      x ∈ (l.foldl (fun m s => (PriceMonitor.add_symbol env m s).2) m).symbols_to_monitor
        ↔ x ∈ m.symbols_to_monitor ∨
            (x ∈ l ∧ env.connected = true ∧ (env.get_price x).isSome = true) := by
  intro l
  induction l with
  | nil => intro m x; simp
  | cons s rest ih =>
      intro m x
      rw [List.foldl_cons, ih, add_symbol_mem]
      constructor
      · rintro ((hm | ⟨rfl, hc, hg⟩) | ⟨hr, hc, hg⟩)
        · exact Or.inl hm
        · exact Or.inr ⟨List.mem_cons_self _ _, hc, hg⟩
        · exact Or.inr ⟨List.mem_cons_of_mem _ hr, hc, hg⟩
      · rintro (hm | ⟨hx, hc, hg⟩)
        · exact Or.inl (Or.inl hm)
        · rcases List.mem_cons.mp hx with rfl | hr
          · exact Or.inl (Or.inr ⟨rfl, hc, hg⟩)
          · exact Or.inr ⟨hr, hc, hg⟩

/-- Helper: the addition fold keeps the watch-list duplicate-free. -/
theorem foldAdd_nodup (env : BrokerEnv) :
    ∀ (l : List Symbol) (m : MonitorState),
      m.symbols_to_monitor.Nodup →
      (l.foldl (fun m s => (PriceMonitor.add_symbol env m s).2) m).symbols_to_monitor.Nodup := by
  intro l
  induction l with
  | nil => intro m hm; simpa using hm
  | cons s rest ih =>
      intro m hm
      rw [List.foldl_cons]
      exact ih _ (add_symbol_nodup env m s hm)

/-- Helper: membership after the removal fold of update_monitored_symbols over a
duplicate-free watch-list. -/
theorem foldRemove_mem :
    ∀ (l : List Symbol) (m : MonitorState) (x : Symbol),
      m.symbols_to_monitor.Nodup →
      (x ∈ (l.foldl (fun m s => (PriceMonitor.remove_symbol m s).2) m).symbols_to_monitor
        ↔ x ∈ m.symbols_to_monitor ∧ x ∉ l) := by
  intro l
  induction l with
  | nil => intro m x hm; simp
  | cons s rest ih =>
      intro m x hm
      rw [List.foldl_cons, ih _ x (remove_symbol_nodup m s hm), remove_symbol_mem m s x hm,
        List.mem_cons]
      constructor
      · rintro ⟨⟨hx, hs⟩, hr⟩
        refine ⟨hx, ?_⟩
        rintro (rfl | hmem)
        · exact hs rfl
        · exact hr hmem
      · rintro ⟨hx, hns⟩
        refine ⟨⟨hx, fun he => hns (Or.inl he)⟩, fun hr => hns (Or.inr hr)⟩

/-- Helper: update_monitored_symbols drops every symbol that no pending instruction
and no active trade references, and adds none of them back. -/
theorem update_not_mem (env : BrokerEnv) (st : ExecutorState) (mst : MonitorState)
    (x : Symbol) (hS : mst.symbols_to_monitor.Nodup)
    (hneed : x ∉ symbolsNeeded st) :
    x ∉ (TradeExecutor.update_monitored_symbols env st mst).symbols_to_monitor := by
  unfold TradeExecutor.update_monitored_symbols
  intro hmem
  rw [foldRemove_mem _ _ x (foldAdd_nodup env _ mst hS)] at hmem
  obtain ⟨h1, h2⟩ := hmem
  rw [foldAdd_mem] at h1
  rcases h1 with h1 | ⟨h1, _, _⟩
  · exact h2 (List.mem_filter.mpr ⟨h1, decide_eq_true hneed⟩)
  · exact hneed (List.mem_filter.mp h1).1

/-- Helper: when the close retry loop reports success, the executor state has the
found trade erased and the monitor state is the reconciliation of that state. -/
theorem closeLoop_success (closeRes : ℕ → Bool) (env : BrokerEnv) (ticket : ℤ)
    (tr : ActiveTrade) (st : ExecutorState) (mst : MonitorState) :
    ∀ n a, (closeLoop closeRes env ticket tr st mst a n).1 = true →
      (closeLoop closeRes env ticket tr st mst a n).2.1
          = { st with active_trades := st.active_trades.erase tr } ∧
      (closeLoop closeRes env ticket tr st mst a n).2.2.1
          = TradeExecutor.update_monitored_symbols env
              { st with active_trades := st.active_trades.erase tr } mst := by
  intro n
  induction n with
  | zero => intro a h; simp [closeLoop] at h
  | succ n ih =>
      intro a h
      by_cases hc : closeRes a = true
      · simp [closeLoop, hc]
      · have hc' : closeRes a = false := by
          cases hh : closeRes a
          · rfl
          · exact absurd hh hc
        rw [closeLoop, hc'] at h ⊢
        simp only [Bool.false_eq_true, if_false] at h ⊢
        exact ih (a + 1) h

/-- C5: after close_trade(ticket) succeeds on a registry with unique tickets, the
ticket no longer appears among the active trades, and whenever no remaining pending
instruction and no remaining active trade references the closed trade's symbol, that
symbol is absent from the monitor's watch-list. -/
theorem C5_close_success_post (closeRes : ℕ → Bool) (env : BrokerEnv) (cfg : RetryCfg)
    (st : ExecutorState) (mst : MonitorState) (ticket : ℤ) (tr : ActiveTrade)
    (hfind : findTrade st.active_trades ticket = some tr)
    (hb : (TradeExecutor.close_trade closeRes env cfg st mst ticket).1 = true)
    (hT : (st.active_trades.map ActiveTrade.ticket).Nodup)
    (hS : mst.symbols_to_monitor.Nodup) :
    (∀ x ∈ TradeExecutor.get_active_trades
        (TradeExecutor.close_trade closeRes env cfg st mst ticket).2.1,
      x.ticket ≠ ticket) ∧
    ((∀ i ∈ (TradeExecutor.close_trade closeRes env cfg st mst ticket).2.1.trade_instructions,
        i.symbol ≠ tr.symbol) →
     (∀ t ∈ (TradeExecutor.close_trade closeRes env cfg st mst ticket).2.1.active_trades,
        t.symbol ≠ tr.symbol) →
      tr.symbol ∉
        (TradeExecutor.close_trade closeRes env cfg st mst ticket).2.2.1.symbols_to_monitor) := by
  have hct : TradeExecutor.close_trade closeRes env cfg st mst ticket
      = ((closeLoop closeRes env ticket tr st mst 1 cfg.max_retries).1,
         (closeLoop closeRes env ticket tr st mst 1 cfg.max_retries).2.1,
         (closeLoop closeRes env ticket tr st mst 1 cfg.max_retries).2.2.1,
         Event.acquire :: Event.release ::
           (closeLoop closeRes env ticket tr st mst 1 cfg.max_retries).2.2.2) := by
    unfold TradeExecutor.close_trade
    rw [hfind]
  rw [hct] at hb ⊢
  simp only at hb ⊢
  obtain ⟨h1, h2⟩ := closeLoop_success closeRes env ticket tr st mst cfg.max_retries 1 hb
  rw [h1, h2]
  have htr_mem : tr ∈ st.active_trades := by
    unfold findTrade at hfind
    exact List.mem_of_find?_eq_some hfind
  have htr_tk : tr.ticket = ticket := by
    unfold findTrade at hfind
    have hp := List.find?_some hfind
    exact of_decide_eq_true hp
  constructor
  · intro x hx he
    have hnd : st.active_trades.Nodup := List.Nodup.of_map ActiveTrade.ticket hT
    have hx' := (List.Nodup.mem_erase_iff hnd).mp hx
    have : x = tr :=
      List.inj_on_of_nodup_map hT hx'.2 htr_mem (by rw [he, htr_tk])
    exact hx'.1 this
  · intro hi ht
    apply update_not_mem env _ mst tr.symbol hS
    rw [mem_symbolsNeeded]
    rintro (⟨i, him, hieq⟩ | ⟨t, htm, hteq⟩)
    · exact hi i him hieq
    · exact ht t htm hteq

/-- Witness for C5 at a one-trade registry and an accepting gateway. -/
theorem C5_witness :
    findTrade (ExecutorState.mk [] [ActiveTrade.mk 1 "EURUSD" 1 2 1 1 "buy" "c" 0]).active_trades 1
      = some (ActiveTrade.mk 1 "EURUSD" 1 2 1 1 "buy" "c" 0) ∧
    (TradeExecutor.close_trade (fun _ => true)
        (BrokerEnv.mk true (fun _ => some (Price.mk 1 2 none))) (RetryCfg.mk 3 1)
        (ExecutorState.mk [] [ActiveTrade.mk 1 "EURUSD" 1 2 1 1 "buy" "c" 0])
        (MonitorState.mk ["EURUSD"] []) 1).1 = true ∧
    (∀ x ∈ TradeExecutor.get_active_trades
        (TradeExecutor.close_trade (fun _ => true)
          (BrokerEnv.mk true (fun _ => some (Price.mk 1 2 none))) (RetryCfg.mk 3 1)
          (ExecutorState.mk [] [ActiveTrade.mk 1 "EURUSD" 1 2 1 1 "buy" "c" 0])
          (MonitorState.mk ["EURUSD"] []) 1).2.1,
      x.ticket ≠ 1) ∧
    ((∀ i ∈ (TradeExecutor.close_trade (fun _ => true)
          (BrokerEnv.mk true (fun _ => some (Price.mk 1 2 none))) (RetryCfg.mk 3 1)
          (ExecutorState.mk [] [ActiveTrade.mk 1 "EURUSD" 1 2 1 1 "buy" "c" 0])
          (MonitorState.mk ["EURUSD"] []) 1).2.1.trade_instructions,
        i.symbol ≠ (ActiveTrade.mk 1 "EURUSD" 1 2 1 1 "buy" "c" 0).symbol) →
     (∀ t ∈ (TradeExecutor.close_trade (fun _ => true)
          (BrokerEnv.mk true (fun _ => some (Price.mk 1 2 none))) (RetryCfg.mk 3 1)
          (ExecutorState.mk [] [ActiveTrade.mk 1 "EURUSD" 1 2 1 1 "buy" "c" 0])
          (MonitorState.mk ["EURUSD"] []) 1).2.1.active_trades,
        t.symbol ≠ (ActiveTrade.mk 1 "EURUSD" 1 2 1 1 "buy" "c" 0).symbol) →
      (ActiveTrade.mk 1 "EURUSD" 1 2 1 1 "buy" "c" 0).symbol ∉
        (TradeExecutor.close_trade (fun _ => true)
          (BrokerEnv.mk true (fun _ => some (Price.mk 1 2 none))) (RetryCfg.mk 3 1)
          (ExecutorState.mk [] [ActiveTrade.mk 1 "EURUSD" 1 2 1 1 "buy" "c" 0])
          (MonitorState.mk ["EURUSD"] []) 1).2.2.1.symbols_to_monitor) :=
  have h := C5_close_success_post (fun _ => true)
    (BrokerEnv.mk true (fun _ => some (Price.mk 1 2 none))) (RetryCfg.mk 3 1)
    (ExecutorState.mk [] [ActiveTrade.mk 1 "EURUSD" 1 2 1 1 "buy" "c" 0])
    (MonitorState.mk ["EURUSD"] []) 1 (ActiveTrade.mk 1 "EURUSD" 1 2 1 1 "buy" "c" 0)
    rfl (by decide) (by decide) (by decide)
  ⟨rfl, by decide, h.1, h.2⟩

/-- Helper: against a gateway failing every close attempt, close_trade leaves both the
executor state and the monitor state unchanged. -/
theorem close_trade_allfail (closeRes : ℕ → Bool) (env : BrokerEnv) (cfg : RetryCfg)
    (st : ExecutorState) (mst : MonitorState) (ticket : ℤ)
    (h : ∀ k, closeRes k = false) :
    (TradeExecutor.close_trade closeRes env cfg st mst ticket).2.1 = st ∧
    (TradeExecutor.close_trade closeRes env cfg st mst ticket).2.2.1 = mst := by
  unfold TradeExecutor.close_trade
  cases hf : findTrade st.active_trades ticket with
  | none => exact ⟨rfl, rfl⟩
  | some tr =>
      simp [closeLoop_allfail closeRes env ticket tr st mst h]

/-- Helper: the cache-aware quote lookup never changes the watch-list. -/
theorem get_price_symbols (env : BrokerEnv) (now : ℚ) (st : MonitorState)
    (symbol : Symbol) :
    (PriceMonitor.get_price env now st symbol).2.1.symbols_to_monitor
      = st.symbols_to_monitor := by
  unfold PriceMonitor.get_price fetchPrice
  repeat' split
  all_goals rfl

/-- Helper: the take-profit check never changes the watch-list. -/
theorem check_exit_symbols (env : BrokerEnv) (now : ℚ) (st : MonitorState)
    (symbol : Symbol) (pos : PositionRec) :
    (PriceMonitor.check_exit_condition env now st symbol pos).2.symbols_to_monitor
      = st.symbols_to_monitor := by
  unfold PriceMonitor.check_exit_condition
  simp only []
  repeat' split
  all_goals exact get_price_symbols env now st symbol

/-- Helper: the stop-loss check never changes the watch-list. -/
theorem check_sl_symbols (env : BrokerEnv) (now : ℚ) (st : MonitorState)
    (symbol : Symbol) (pos : PositionRec) :
    (PriceMonitor.check_sl_condition env now st symbol pos).2.symbols_to_monitor
      = st.symbols_to_monitor := by
  unfold PriceMonitor.check_sl_condition
  simp only []
  repeat' split
  all_goals exact get_price_symbols env now st symbol

/-- Helper: with every close attempt failing, one position step keeps the executor
state and the watch-list unchanged (only the quote cache may move). -/
theorem posStep_allfail (env : BrokerEnv) (closeRes : ℤ → ℕ → Bool) (cfg : RetryCfg)
    (now : ℚ) (symbol : Symbol) (st : SystemState) (pos : PositionRec)
    (h : ∀ t k, closeRes t k = false) :
    (posStep env closeRes cfg now symbol st pos).exec = st.exec ∧
    (posStep env closeRes cfg now symbol st pos).mon.symbols_to_monitor
      = st.mon.symbols_to_monitor := by
  have hc1 : ∀ (e : ExecutorState) (m : MonitorState) (tk : ℤ),
      (TradeExecutor.close_trade (closeRes tk) env cfg e m tk).2.1 = e :=
    fun e m tk => (close_trade_allfail (closeRes tk) env cfg e m tk (h tk)).1
  have hc2 : ∀ (e : ExecutorState) (m : MonitorState) (tk : ℤ),
      (TradeExecutor.close_trade (closeRes tk) env cfg e m tk).2.2.1 = m :=
    fun e m tk => (close_trade_allfail (closeRes tk) env cfg e m tk (h tk)).2
  unfold posStep
  by_cases hps : pos.symbol = symbol
  · simp only [if_pos hps]
    constructor
    · split <;> split <;> simp [hc1]
    · split <;> split <;>
        simp [hc1, hc2, check_exit_symbols, check_sl_symbols]
  · simp [hps]

/-- Helper: with every close attempt failing, folding position steps keeps the
executor state and the watch-list unchanged. -/
theorem foldPos_allfail (env : BrokerEnv) (closeRes : ℤ → ℕ → Bool) (cfg : RetryCfg)
    (now : ℚ) (symbol : Symbol) (h : ∀ t k, closeRes t k = false) :
    ∀ (ps : List PositionRec) (st : SystemState),
      (ps.foldl (posStep env closeRes cfg now symbol) st).exec = st.exec ∧
      (ps.foldl (posStep env closeRes cfg now symbol) st).mon.symbols_to_monitor
        = st.mon.symbols_to_monitor := by
  intro ps
  induction ps with
  | nil => intro st; exact ⟨rfl, rfl⟩
  | cons p rest ih =>
      intro st
      rw [List.foldl_cons]
      have hp := posStep_allfail env closeRes cfg now symbol st p h
      have hr := ih (posStep env closeRes cfg now symbol st p)
      exact ⟨hr.1.trans hp.1, hr.2.trans hp.2⟩

/-- Helper: with every close attempt failing, one per-symbol step of the monitoring
loop never changes the watch-list. -/
theorem perSymbolStep_allfail_symbols (env : BrokerEnv) (positions : List PositionRec)
    (orderRes : Symbol → ℕ → ℕ → Option ℤ) (closeRes : ℤ → ℕ → Bool) (cfg : RetryCfg)
    (now : ℚ) (st : SystemState) (s : Symbol) (h : ∀ t k, closeRes t k = false) :
    (perSymbolStep env positions orderRes closeRes cfg now st s).mon.symbols_to_monitor
      = st.mon.symbols_to_monitor := by
  unfold perSymbolStep
  cases hg : env.get_price s with
  | none => rfl
  | some price =>
      simp only
      exact (foldPos_allfail env closeRes cfg now s h positions _).2

/-- Helper: with every close attempt failing, folding per-symbol steps over any
snapshot never changes the watch-list. -/
theorem foldSyms_allfail_symbols (env : BrokerEnv) (positions : List PositionRec)
    (orderRes : Symbol → ℕ → ℕ → Option ℤ) (closeRes : ℤ → ℕ → Bool) (cfg : RetryCfg)
    (now : ℚ) (h : ∀ t k, closeRes t k = false) :
    ∀ (syms : List Symbol) (st : SystemState),
      (syms.foldl (perSymbolStep env positions orderRes closeRes cfg now) st).mon.symbols_to_monitor
        = st.mon.symbols_to_monitor := by
  intro syms
  induction syms with
  | nil => intro st; rfl
  | cons s rest ih =>
      intro st
      rw [List.foldl_cons]
      exact (ih _).trans
        (perSymbolStep_allfail_symbols env positions orderRes closeRes cfg now st s h)

/-- Helper: membership in the position-symbol set. -/
theorem mem_positionSymbols :
    ∀ (ps : List PositionRec) (x : Symbol),
      x ∈ positionSymbols ps ↔ ∃ p ∈ ps, p.symbol = x := by
  have hgen : ∀ (ps : List PositionRec) (acc : List Symbol) (x : Symbol),
      x ∈ ps.foldl (fun a p => insertSym a p.symbol) acc ↔
        x ∈ acc ∨ ∃ p ∈ ps, p.symbol = x := by
    intro ps
    induction ps with
    | nil => intro acc x; simp
    | cons p rest ih =>
        intro acc x
        rw [List.foldl_cons, ih, mem_insertSym]
        constructor
        · rintro ((hx | rfl) | ⟨p2, hp2, hq⟩)
          · exact Or.inl hx
          · exact Or.inr ⟨p, List.mem_cons_self _ _, rfl⟩
          · exact Or.inr ⟨p2, List.mem_cons_of_mem _ hp2, hq⟩
        · rintro (hx | ⟨p2, hp2, hq⟩)
          · exact Or.inl (Or.inl hx)
          · rcases List.mem_cons.mp hp2 with rfl | hr
            · exact Or.inl (Or.inr hq.symm)
            · exact Or.inr ⟨p2, hr, hq⟩
  intro ps x
  rw [positionSymbols, hgen]
  simp

/-- Helper: the position-symbol reconciliation step never removes a symbol. -/
theorem addMissing_mono (env : BrokerEnv) :
    ∀ (l : List Symbol) (m : MonitorState) (x : Symbol),
      x ∈ m.symbols_to_monitor →
      x ∈ (l.foldl (fun m s =>
            if s ∈ m.symbols_to_monitor then m else (PriceMonitor.add_symbol env m s).2) m).symbols_to_monitor := by
  intro l
  induction l with
  | nil => intro m x hx; exact hx
  | cons s rest ih =>
      intro m x hx
      rw [List.foldl_cons]
      apply ih
      by_cases hs : s ∈ m.symbols_to_monitor
      · simpa [hs] using hx
      · simp only [if_neg hs]
        exact (add_symbol_mem env m s x).mpr (Or.inl hx)

/-- Helper: the position-symbol reconciliation step inserts every open-position symbol
whose validation quote fetch succeeds while the broker is connected. -/
theorem addMissing_adds (env : BrokerEnv) (positions : List PositionRec)
    (mst : MonitorState) (p : PositionRec)
    (hp : p ∈ positions) (hc : env.connected = true)
    (hg : (env.get_price p.symbol).isSome = true) :
    p.symbol ∈ (addMissingPositionSymbols env positions mst).symbols_to_monitor := by
  have hmem : p.symbol ∈ positionSymbols positions :=
    (mem_positionSymbols positions p.symbol).mpr ⟨p, hp, rfl⟩
  unfold addMissingPositionSymbols
  revert mst
  generalize positionSymbols positions = l at hmem ⊢
  induction l with
  | nil => cases hmem
  | cons s rest ih =>
      intro mst
      rw [List.foldl_cons]
      rcases List.mem_cons.mp hmem with rfl | hr
      · by_cases hs : p.symbol ∈ mst.symbols_to_monitor
        · simp only [if_pos hs]
          exact addMissing_mono env rest mst p.symbol hs
        · simp only [if_neg hs]
          exact addMissing_mono env rest _ p.symbol
            ((add_symbol_mem env mst p.symbol p.symbol).mpr (Or.inr ⟨rfl, hc, hg⟩))
      · exact ih hr _

/-- C2 counterexample: a full poll cycle on a connected gateway with no open
positions, no pending instructions and no active trades leaves an orphaned symbol in
the watch-list, refuting the two-sided reconciliation invariant: the symbol is present
although nothing references it. -/
theorem C2_counterexample :
    "EURUSD" ∈ (pollCycle (BrokerEnv.mk true (fun _ => some (Price.mk 1 2 (some 0))))
        [] (fun _ _ _ => none) (fun _ _ => false) (RetryCfg.mk 3 1) 0
        (SystemState.mk (ExecutorState.mk [] [])
          (MonitorState.mk ["EURUSD"] []))).mon.symbols_to_monitor ∧
    (pollCycle (BrokerEnv.mk true (fun _ => some (Price.mk 1 2 (some 0))))
        [] (fun _ _ _ => none) (fun _ _ => false) (RetryCfg.mk 3 1) 0
        (SystemState.mk (ExecutorState.mk [] [])
          (MonitorState.mk ["EURUSD"] []))).exec.trade_instructions = [] ∧
    (pollCycle (BrokerEnv.mk true (fun _ => some (Price.mk 1 2 (some 0))))
        [] (fun _ _ _ => none) (fun _ _ => false) (RetryCfg.mk 3 1) 0
        (SystemState.mk (ExecutorState.mk [] [])
          (MonitorState.mk ["EURUSD"] []))).exec.active_trades = [] := by
  refine ⟨?_, rfl, rfl⟩
  decide

/-- C2 (amended): the poll cycle reconciles the watch-list in one direction only:
with the gateway connected it preserves every symbol already watched and inserts
every open-position symbol whose validation quote fetch succeeds (stated here for
cycles whose close attempts fail, so that no trade commit intervenes); it performs no
removal of its own — with no open positions and an empty backlog the watch-list is
returned exactly as it was, so entries referenced by nothing persist. -/
theorem C2_watchlist_one_sided (env : BrokerEnv) (positions : List PositionRec)
    (orderRes : Symbol → ℕ → ℕ → Option ℤ) (closeRes : ℤ → ℕ → Bool) (cfg : RetryCfg)
    (now : ℚ) (st : SystemState)
    (hconn : env.connected = true) (hclose : ∀ t k, closeRes t k = false) :
    (∀ x ∈ st.mon.symbols_to_monitor,
       x ∈ (pollCycle env positions orderRes closeRes cfg now st).mon.symbols_to_monitor) ∧
    (∀ p ∈ positions, (env.get_price p.symbol).isSome = true →
       p.symbol ∈ (pollCycle env positions orderRes closeRes cfg now st).mon.symbols_to_monitor) ∧
    (st.exec.trade_instructions = [] → positions = [] →
       (pollCycle env positions orderRes closeRes cfg now st).mon.symbols_to_monitor
         = st.mon.symbols_to_monitor) := by
  have hsy : (pollCycle env positions orderRes closeRes cfg now st).mon.symbols_to_monitor
      = (addMissingPositionSymbols env positions st.mon).symbols_to_monitor := by
    unfold pollCycle
    exact foldSyms_allfail_symbols env positions orderRes closeRes cfg now hclose _ _
  refine ⟨?_, ?_, ?_⟩
  · intro x hx
    rw [hsy]
    exact addMissing_mono env (positionSymbols positions) st.mon x hx
  · intro p hp hg
    rw [hsy]
    exact addMissing_adds env positions st.mon p hp hconn hg
  · intro hti hps
    subst hps
    rw [hsy]
    rfl

/-- Witness for C2 (amended) at a concrete connected gateway, one open position and a
previously watched symbol, plus a second application with no positions showing the
watch-list is returned unchanged. -/
theorem C2_witness :
    (BrokerEnv.mk true (fun _ => some (Price.mk 1 2 (some 0)))).connected = true ∧
    ("EURUSD" ∈ (pollCycle (BrokerEnv.mk true (fun _ => some (Price.mk 1 2 (some 0))))
        [PositionRec.mk 5 "GBPUSD" (some "buy") none none]
        (fun _ _ _ => none) (fun _ _ => false) (RetryCfg.mk 3 1) 0
        (SystemState.mk (ExecutorState.mk [] [])
          (MonitorState.mk ["EURUSD"] []))).mon.symbols_to_monitor) ∧
    ("GBPUSD" ∈ (pollCycle (BrokerEnv.mk true (fun _ => some (Price.mk 1 2 (some 0))))
        [PositionRec.mk 5 "GBPUSD" (some "buy") none none]
        (fun _ _ _ => none) (fun _ _ => false) (RetryCfg.mk 3 1) 0
        (SystemState.mk (ExecutorState.mk [] [])
          (MonitorState.mk ["EURUSD"] []))).mon.symbols_to_monitor) ∧
    (pollCycle (BrokerEnv.mk true (fun _ => some (Price.mk 1 2 (some 0))))
        [] (fun _ _ _ => none) (fun _ _ => false) (RetryCfg.mk 3 1) 0
        (SystemState.mk (ExecutorState.mk [] [])
          (MonitorState.mk ["EURUSD"] []))).mon.symbols_to_monitor
      = (MonitorState.mk ["EURUSD"] []).symbols_to_monitor :=
  have h1 := C2_watchlist_one_sided
    (BrokerEnv.mk true (fun _ => some (Price.mk 1 2 (some 0))))
    [PositionRec.mk 5 "GBPUSD" (some "buy") none none]
    (fun _ _ _ => none) (fun _ _ => false) (RetryCfg.mk 3 1) 0
    (SystemState.mk (ExecutorState.mk [] []) (MonitorState.mk ["EURUSD"] []))
    rfl (fun _ _ => rfl)
  have h2 := C2_watchlist_one_sided
    (BrokerEnv.mk true (fun _ => some (Price.mk 1 2 (some 0))))
    [] (fun _ _ _ => none) (fun _ _ => false) (RetryCfg.mk 3 1) 0
    (SystemState.mk (ExecutorState.mk [] []) (MonitorState.mk ["EURUSD"] []))
    rfl (fun _ _ => rfl)
  ⟨rfl,
   h1.1 "EURUSD" (by decide),
   h1.2.1 (PositionRec.mk 5 "GBPUSD" (some "buy") none none) (by decide) rfl,
   h2.2.2 rfl rfl⟩

/-- Helper: if the first m cycle inputs report the gateway connected and input m
reports it disconnected, the monitoring loop runs exactly m cycle bodies and stops. -/
theorem runLoop_disconnect (cfg : RetryCfg) (inputs : ℕ → CycleInput) :
    ∀ (m fuel idx : ℕ) (st : SystemState),
      (∀ j, j < m → (inputs (idx + j)).env.connected = true) →
      (inputs (idx + m)).env.connected = false →
      m < fuel →
      (runLoop cfg inputs fuel idx st).2 = m := by
  intro m
  induction m with
  | zero =>
      intro fuel idx st hcon hdis hlt
      cases fuel with
      | zero => omega
      | succ f =>
          unfold runLoop
          have h0 : (inputs idx).env.connected = false := by simpa using hdis
          simp [h0]
  | succ m ih =>
      intro fuel idx st hcon hdis hlt
      cases fuel with
      | zero => omega
      | succ f =>
          unfold runLoop
          have h0 : (inputs idx).env.connected = true := by
            simpa using hcon 0 (Nat.succ_pos m)
          have hrec := ih f (idx + 1) (pollCycleCI cfg (inputs idx) st)
            (fun j hj => by
              have := hcon (j + 1) (Nat.succ_lt_succ hj)
              simpa [Nat.add_assoc, Nat.add_comm 1 j] using this)
            (by simpa [Nat.add_assoc, Nat.add_comm 1 m] using hdis)
            (by omega)
          simp [h0, hrec]

/-- Helper: while every cycle input reports the gateway connected, the loop consumes
all its fuel: per-symbol fetch failures never terminate it. -/
theorem runLoop_connected (cfg : RetryCfg) (inputs : ℕ → CycleInput)
    (hconn : ∀ i, (inputs i).env.connected = true) :
    ∀ (fuel idx : ℕ) (st : SystemState),
      (runLoop cfg inputs fuel idx st).2 = fuel := by
  intro fuel
  induction fuel with
  | zero => intro idx st; rfl
  | succ f ih =>
      intro idx st
      unfold runLoop
      simp [hconn idx, ih]

/-- Helper: a failed quote fetch makes the per-symbol step of the cycle the identity:
that symbol's entry, exit and stop-loss checks are all skipped. -/
theorem perSymbolStep_skip (env : BrokerEnv) (positions : List PositionRec)
    (orderRes : Symbol → ℕ → ℕ → Option ℤ) (closeRes : ℤ → ℕ → Bool) (cfg : RetryCfg)
    (now : ℚ) (st : SystemState) (s : Symbol) (h : env.get_price s = none) :
    perSymbolStep env positions orderRes closeRes cfg now st s = st := by
  unfold perSymbolStep
  rw [h]

/-- C4: observing the gateway disconnected at the start of a cycle terminates the
monitoring loop entirely — with the first m inputs connected and input m disconnected,
exactly m cycle bodies run and none after — whereas a failed quote fetch for one
watched symbol only makes that symbol's step a no-op for the cycle, and a loop whose
inputs all stay connected keeps running every cycle regardless of fetch failures. -/
theorem C4_disconnect_terminates_loop (cfg : RetryCfg) (inputs inputs2 : ℕ → CycleInput)
    (m fuel : ℕ) (st : SystemState) (env : BrokerEnv) (positions : List PositionRec)
    (orderRes : Symbol → ℕ → ℕ → Option ℤ) (closeRes : ℤ → ℕ → Bool) (now : ℚ)
    (stS : SystemState) (s : Symbol) :
    ((∀ j, j < m → (inputs j).env.connected = true) →
      (inputs m).env.connected = false → m < fuel →
      (runLoop cfg inputs fuel 0 st).2 = m) ∧
    (env.get_price s = none →
      perSymbolStep env positions orderRes closeRes cfg now stS s = stS) ∧
    ((∀ i, (inputs2 i).env.connected = true) →
      (runLoop cfg inputs2 fuel 0 st).2 = fuel) := by
  refine ⟨?_, ?_, ?_⟩
  · intro h1 h2 h3
    exact runLoop_disconnect cfg inputs m fuel 0 st
      (fun j hj => by simpa using h1 j hj) (by simpa using h2) h3
  · exact perSymbolStep_skip env positions orderRes closeRes cfg now stS s
  · intro h
    exact runLoop_connected cfg inputs2 h fuel 0 st

/-- Witness for C4: a loop whose second input is disconnected runs exactly one cycle;
a symbol whose fetch fails leaves the state untouched; an always-connected loop runs
all three cycles. -/
theorem C4_witness :
    (runLoop (RetryCfg.mk 3 1)
        (fun i => CycleInput.mk (BrokerEnv.mk (decide (i = 0)) (fun _ => none)) [] 0
          (fun _ _ _ => none) (fun _ _ => false)) 3 0
        (SystemState.mk (ExecutorState.mk [] []) (MonitorState.mk [] []))).2 = 1 ∧
    perSymbolStep (BrokerEnv.mk true (fun _ => none)) []
        (fun _ _ _ => none) (fun _ _ => false) (RetryCfg.mk 3 1) 0
        (SystemState.mk (ExecutorState.mk [] []) (MonitorState.mk [] [])) "EURUSD"
      = SystemState.mk (ExecutorState.mk [] []) (MonitorState.mk [] []) ∧
    (runLoop (RetryCfg.mk 3 1)
        (fun _ => CycleInput.mk (BrokerEnv.mk true (fun _ => none)) [] 0
          (fun _ _ _ => none) (fun _ _ => false)) 3 0
        (SystemState.mk (ExecutorState.mk [] []) (MonitorState.mk [] []))).2 = 3 :=
  have h := C4_disconnect_terminates_loop (RetryCfg.mk 3 1)
    (fun i => CycleInput.mk (BrokerEnv.mk (decide (i = 0)) (fun _ => none)) [] 0
      (fun _ _ _ => none) (fun _ _ => false))
    (fun _ => CycleInput.mk (BrokerEnv.mk true (fun _ => none)) [] 0
      (fun _ _ _ => none) (fun _ _ => false))
    1 3 (SystemState.mk (ExecutorState.mk [] []) (MonitorState.mk [] []))
    (BrokerEnv.mk true (fun _ => none)) [] (fun _ _ _ => none) (fun _ _ => false) 0
    (SystemState.mk (ExecutorState.mk [] []) (MonitorState.mk [] [])) "EURUSD"
  ⟨h.1 (fun j hj => by
      have : j = 0 := Nat.lt_one_iff.mp hj
      subst this
      rfl) rfl (by omega),
   h.2.1 rfl,
   h.2.2 (fun _ => rfl)⟩

end ForexBot
